import Mathlib

/-!
Shallow embedding of `packages/core/src/electron-main/messaging/electron-ipc-connection.ts`.

The source adapts the Electron `ipcMain` event emitter into the `MessageReader` /
`MessageWriter` capability pair expected by `createMessageConnection`:

- a module-level `DisposableCollection` (`toDispose`) shared by the reader and the writer;
- three `Emitter` objects (`errorEmitter`, `closeEmitter`, `partialEmitter`) pushed onto
  `toDispose` at module load and exposed as `onError` / `onClose` / `onPartialMessage`,
  but never fired;
- `listen(callback)`: when the collection is not disposed, registers `callback` with
  `ipcMain.on(ElectronIpcMainChannel, callback)` and pushes a disposable that calls
  `ipcMain.removeListener(ElectronIpcMainChannel, callback)`;
- `write(message)`: when the collection is not disposed, calls
  `ipcMain.emit(ElectronIpcMainChannel, message)`;
- both `dispose()` methods call `toDispose.dispose()`.

We model the program state explicitly: the `ipcMain` listener registry (a list of
(topic, callback id) registrations in registration order, with Node `EventEmitter`
semantics for `on` / `emit` / `removeListener`: `emit` synchronously invokes every
currently registered listener of the topic in registration order in the same process,
`removeListener` removes the most recently added matching registration), the disposal
collection, the three emitters, and an event log recording every callback invocation.
Messages are an arbitrary type `Msg`: the adapter never inspects them.
-/

/-- Name of the channel used with `ipcMain.on/emit` (source constant
`ElectronIpcMainChannel` in `electron-ipc-connection.ts`). -/
def ElectronIpcMainChannel : String := "theia-json-rpc"

/-- The three auxiliary signal channels exposed by the adapter: `errorEmitter`,
`closeEmitter` and the partial-message emitter of the source. -/
inductive SignalKind where
  | error
  | close
  | partMessage
deriving DecidableEq, Repr

/-- Observable events: `deliver cb m` records the channel-registry callback `cb`
being invoked with message `m`; `signal k cb` records a subscriber `cb` of the
signal emitter `k` being invoked. -/
inductive Event (Msg : Type) where
  | deliver (cb : Nat) (m : Msg)
  | signal (k : SignalKind) (cb : Nat)
deriving DecidableEq, Repr

/-- Modelled from the spec: the Signal Emitter (theia `common/event.Emitter`, not under
`src/`): it holds zero or more subscriber callbacks; subscribing appends; firing invokes
every current subscriber synchronously in subscription order; disposal tears the
subscriber list down. Callbacks are identified by ids. -/
structure Emitter where
  subscribers : List Nat
deriving DecidableEq, Repr

/-- Subscribing to an emitter (the `onError` / `onClose` / `onPartialMessage`
subscription points) appends the callback to the subscriber list. -/
def Emitter.subscribe (e : Emitter) (cb : Nat) : Emitter :=
  ⟨e.subscribers ++ [cb]⟩

/-- Firing an emitter invokes every current subscriber in subscription order:
the resulting invocation events.  The adapter never calls this on any of its
three emitters; it is part of the emitter model only. -/
def Emitter.fireEvents (e : Emitter) (k : SignalKind) {Msg : Type} : List (Event Msg) :=
  e.subscribers.map (Event.signal k)

/-- A resource tracked by the disposal collection: either the unregistration of a
channel listener (the `Disposable.create` pushed by `listen`) or the teardown of one
of the three signal emitters (pushed by the module-level `pushAll`). -/
inductive TrackedDisposal where
  | removeListener (topic : String) (cb : Nat)
  | emitterDispose (k : SignalKind)
deriving DecidableEq, Repr

/-- Modelled from the spec: the Disposal Tracker (theia `common/disposable.
DisposableCollection`, not under `src/`): it owns a set of disposal actions; disposal
runs every tracked action exactly once and moves one-way from Active to Disposed;
repeated disposal is a no-op; once disposed, `listen` and `write` have no effect. -/
structure DisposableCollection where
  disposed : Bool
  actions : List TrackedDisposal
deriving DecidableEq, Repr

/-- Whole program state of the adapter module: the `ipcMain` listener registry
(registration order preserved), the shared disposal collection, the three signal
emitters, and the log of callback invocations observed so far. -/
structure AdapterState (Msg : Type) where
  registry : List (String × Nat)
  toDispose : DisposableCollection
  errorEmitter : Emitter
  closeEmitter : Emitter
  partMsgEmitter : Emitter
  log : List (Event Msg)
deriving DecidableEq, Repr

/-- Node `EventEmitter.on`: appends the registration at the end of the listener list. -/
def ipcMainOn (registry : List (String × Nat)) (topic : String) (cb : Nat) :
    List (String × Nat) :=
  registry ++ [(topic, cb)]

/-- Remove the first registration equal to `(topic, cb)` from the list; no-op when
absent. -/
def removeFirstFrom : List (String × Nat) → String → Nat → List (String × Nat)
  | [], _, _ => []
  | x :: xs, topic, cb =>
    if x.1 = topic ∧ x.2 = cb then xs else x :: removeFirstFrom xs topic cb

/-- Node `EventEmitter.removeListener`: removes the most recently added registration
of `cb` under `topic` (Node searches the listener array from its end); no-op when
absent. -/
def ipcMainRemoveListener (registry : List (String × Nat)) (topic : String) (cb : Nat) :
    List (String × Nat) :=
  (removeFirstFrom registry.reverse topic cb).reverse

/-- Node `EventEmitter.emit`: the invocation events produced by publishing `m` on
`topic` — every currently registered callback of `topic`, in registration order,
invoked with `m` itself. -/
def emitEvents {Msg : Type} : List (String × Nat) → String → Msg → List (Event Msg)
  | [], _, _ => []
  | x :: xs, topic, m =>
    if x.1 = topic then Event.deliver x.2 m :: emitEvents xs topic m
    else emitEvents xs topic m

/-- Number of current registrations of callback `cb` under `topic`. -/
def regCount : List (String × Nat) → String → Nat → Nat
  | [], _, _ => 0
  | x :: xs, topic, cb =>
    (if x.1 = topic ∧ x.2 = cb then 1 else 0) + regCount xs topic cb

/-- Number of current registrations of callback `cb` under any topic. -/
def regCountAll : List (String × Nat) → Nat → Nat
  | [], _ => 0
  | x :: xs, cb => (if x.2 = cb then 1 else 0) + regCountAll xs cb

/-- The messages delivered to callback `cb` in a log, in delivery order. -/
def deliveriesTo {Msg : Type} (cb : Nat) : List (Event Msg) → List Msg
  | [] => []
  | Event.deliver c m :: es =>
    if c = cb then m :: deliveriesTo cb es else deliveriesTo cb es
  | Event.signal _ _ :: es => deliveriesTo cb es

/-- The signal-emitter invocation events in a log (those of `onError` / `onClose` /
`onPartialMessage` subscribers). -/
def signalEvents {Msg : Type} : List (Event Msg) → List (Event Msg)
  | [] => []
  | Event.deliver _ _ :: es => signalEvents es
  | Event.signal k cb :: es => Event.signal k cb :: signalEvents es

/-- Running one tracked disposal action: a `removeListener` action unregisters its
callback from the registry; an `emitterDispose` action clears the corresponding
emitter's subscribers. -/
def runTracked {Msg : Type} (s : AdapterState Msg) : TrackedDisposal → AdapterState Msg
  | TrackedDisposal.removeListener topic cb =>
    { s with registry := ipcMainRemoveListener s.registry topic cb }
  | TrackedDisposal.emitterDispose SignalKind.error => { s with errorEmitter := ⟨[]⟩ }
  | TrackedDisposal.emitterDispose SignalKind.close => { s with closeEmitter := ⟨[]⟩ }
  | TrackedDisposal.emitterDispose SignalKind.partMessage =>
    { s with partMsgEmitter := ⟨[]⟩ }

/-- Running a list of tracked disposal actions in order. -/
def runAllTracked {Msg : Type} (s : AdapterState Msg) :
    List TrackedDisposal → AdapterState Msg
  | [] => s
  | a :: as => runAllTracked (runTracked s a) as

/-- The body shared by the reader's and the writer's `dispose()`: `toDispose.dispose()`.
If already disposed it is a no-op; otherwise every tracked action runs exactly once
(most recently pushed first) and the collection transitions to Disposed. -/
def disposeCall {Msg : Type} (s : AdapterState Msg) : AdapterState Msg :=
  if s.toDispose.disposed then s
  else
    let s1 := runAllTracked s s.toDispose.actions.reverse
    { s1 with toDispose := ⟨true, []⟩ }

/-- The operations observable on the adapter module: the reader capability
(`listen`, `dispose`), the writer capability (`write`, `dispose`), the three
subscription points, and the actions of other parties on the shared `ipcMain`
registry (subscribing and publishing on arbitrary topics). -/
inductive Op (Msg : Type) where
  | listen (cb : Nat)
  | write (m : Msg)
  | disposeReader
  | disposeWriter
  | onError (cb : Nat)
  | onClose (cb : Nat)
  | onPartialMessage (cb : Nat)
  | extSubscribe (topic : String) (cb : Nat)
  | extPublish (topic : String) (m : Msg)
deriving DecidableEq, Repr

/-- One step of the adapter module, translated from the source:
`listen` registers on `ipcMain` and pushes the removal disposable unless disposed;
`write` calls `ipcMain.emit` unless disposed; both dispose operations call
`toDispose.dispose()`; the subscription points subscribe to the shared emitters;
external parties act on the `ipcMain` registry directly. -/
def step {Msg : Type} (s : AdapterState Msg) : Op Msg → AdapterState Msg
  | Op.listen cb =>
    if s.toDispose.disposed then s
    else
      { s with
        registry := ipcMainOn s.registry ElectronIpcMainChannel cb,
        toDispose :=
          ⟨s.toDispose.disposed,
            s.toDispose.actions ++
              [TrackedDisposal.removeListener ElectronIpcMainChannel cb]⟩ }
  | Op.write m =>
    if s.toDispose.disposed then s
    else { s with log := s.log ++ emitEvents s.registry ElectronIpcMainChannel m }
  | Op.disposeReader => disposeCall s
  | Op.disposeWriter => disposeCall s
  | Op.onError cb => { s with errorEmitter := s.errorEmitter.subscribe cb }
  | Op.onClose cb => { s with closeEmitter := s.closeEmitter.subscribe cb }
  | Op.onPartialMessage cb => { s with partMsgEmitter := s.partMsgEmitter.subscribe cb }
  | Op.extSubscribe topic cb => { s with registry := ipcMainOn s.registry topic cb }
  | Op.extPublish topic m => { s with log := s.log ++ emitEvents s.registry topic m }

/-- Running a sequence of operations. -/
def run {Msg : Type} (s : AdapterState Msg) (ops : List (Op Msg)) : AdapterState Msg :=
  ops.foldl step s

/-- The module state right after load: empty registry, empty log, the disposal
collection holding exactly the three emitter teardowns pushed by
`toDispose.pushAll([errorEmitter, closeEmitter, partialEmitter])`, and the three
emitters with no subscribers. -/
def initState (Msg : Type) : AdapterState Msg where
  registry := []
  toDispose :=
    ⟨false,
      [TrackedDisposal.emitterDispose SignalKind.error,
        TrackedDisposal.emitterDispose SignalKind.close,
        TrackedDisposal.emitterDispose SignalKind.partMessage]⟩
  errorEmitter := ⟨[]⟩
  closeEmitter := ⟨[]⟩
  partMsgEmitter := ⟨[]⟩
  log := []

/-- Whether an operation registers callback `cb` on the channel registry
(either via the adapter's `listen` or by an external party). -/
def registersCb {Msg : Type} (cb : Nat) : Op Msg → Bool
  | Op.listen c => c == cb
  | Op.extSubscribe _ c => c == cb
  | _ => false

/-! ### List-level helper lemmas -/

theorem deliveriesTo_append {Msg : Type} (cb : Nat) (l1 l2 : List (Event Msg)) :
    deliveriesTo cb (l1 ++ l2) = deliveriesTo cb l1 ++ deliveriesTo cb l2 := by
  induction l1 with
  | nil => rfl
  | cons e es ih =>
    cases e with
    | deliver c m =>
      by_cases hc : c = cb
      · simp [deliveriesTo, hc, ih]
      · simp [deliveriesTo, hc, ih]
    | signal k c => simp [deliveriesTo, ih]

theorem signalEvents_append {Msg : Type} (l1 l2 : List (Event Msg)) :
    signalEvents (l1 ++ l2) = signalEvents l1 ++ signalEvents l2 := by
  induction l1 with
  | nil => rfl
  | cons e es ih =>
    cases e with
    | deliver c m => simp [signalEvents, ih]
    | signal k c => simp [signalEvents, ih]

theorem deliveriesTo_emitEvents {Msg : Type} (cb : Nat) (r : List (String × Nat))
    (topic : String) (m : Msg) :
    deliveriesTo cb (emitEvents r topic m) = List.replicate (regCount r topic cb) m := by
  induction r with
  | nil => rfl
  | cons x xs ih =>
    by_cases ht : x.1 = topic
    · by_cases hc : x.2 = cb
      · simp [emitEvents, regCount, deliveriesTo, ht, hc, ih, List.replicate_succ,
          Nat.add_comm]
      · simp [emitEvents, regCount, deliveriesTo, ht, hc, ih]
    · simp [emitEvents, regCount, ht, ih]

theorem signalEvents_emitEvents {Msg : Type} (r : List (String × Nat))
    (topic : String) (m : Msg) :
    signalEvents (emitEvents r topic m) = [] := by
  induction r with
  | nil => rfl
  | cons x xs ih =>
    by_cases ht : x.1 = topic
    · simp [emitEvents, signalEvents, ht, ih]
    · simp [emitEvents, ht, ih]

theorem regCount_append (r1 r2 : List (String × Nat)) (topic : String) (cb : Nat) :
    regCount (r1 ++ r2) topic cb = regCount r1 topic cb + regCount r2 topic cb := by
  induction r1 with
  | nil => simp [regCount]
  | cons x xs ih => simp [regCount, ih, Nat.add_assoc]

theorem regCountAll_append (r1 r2 : List (String × Nat)) (cb : Nat) :
    regCountAll (r1 ++ r2) cb = regCountAll r1 cb + regCountAll r2 cb := by
  induction r1 with
  | nil => simp [regCountAll]
  | cons x xs ih => simp [regCountAll, ih, Nat.add_assoc]

theorem regCount_le_regCountAll (r : List (String × Nat)) (topic : String) (cb : Nat) :
    regCount r topic cb ≤ regCountAll r cb := by
  induction r with
  | nil => exact Nat.le_refl 0
  | cons x xs ih =>
    have hind : (if x.1 = topic ∧ x.2 = cb then 1 else 0) ≤ (if x.2 = cb then 1 else 0) := by
      by_cases h : x.1 = topic ∧ x.2 = cb
      · simp [h, h.2]
      · simp [h]
    exact Nat.add_le_add hind ih

theorem regCountAll_reverse (r : List (String × Nat)) (cb : Nat) :
    regCountAll r.reverse cb = regCountAll r cb := by
  induction r with
  | nil => rfl
  | cons x xs ih =>
    simp [List.reverse_cons, regCountAll_append, regCountAll, ih, Nat.add_comm]

theorem regCountAll_removeFirstFrom_le (r : List (String × Nat)) (topic : String)
    (c cb : Nat) : regCountAll (removeFirstFrom r topic c) cb ≤ regCountAll r cb := by
  induction r with
  | nil => exact Nat.le_refl 0
  | cons x xs ih =>
    by_cases h : x.1 = topic ∧ x.2 = c
    · simp only [removeFirstFrom, if_pos h, regCountAll]
      exact Nat.le_add_left _ _
    · simp only [removeFirstFrom, if_neg h, regCountAll]
      exact Nat.add_le_add_left ih _

theorem regCountAll_ipcMainRemoveListener_le (r : List (String × Nat)) (topic : String)
    (c cb : Nat) : regCountAll (ipcMainRemoveListener r topic c) cb ≤ regCountAll r cb := by
  unfold ipcMainRemoveListener
  calc regCountAll (removeFirstFrom r.reverse topic c).reverse cb
      = regCountAll (removeFirstFrom r.reverse topic c) cb := regCountAll_reverse _ _
    _ ≤ regCountAll r.reverse cb := regCountAll_removeFirstFrom_le _ _ _ _
    _ = regCountAll r cb := regCountAll_reverse _ _

theorem ipcMainRemoveListener_append_last (r : List (String × Nat)) (topic : String)
    (cb : Nat) : ipcMainRemoveListener (r ++ [(topic, cb)]) topic cb = r := by
  unfold ipcMainRemoveListener
  simp [removeFirstFrom]

/-! ### State-level helper lemmas -/

theorem runTracked_log {Msg : Type} (s : AdapterState Msg) (a : TrackedDisposal) :
    (runTracked s a).log = s.log := by
  cases a with
  | removeListener topic cb => rfl
  | emitterDispose k => cases k <;> rfl

theorem runTracked_toDispose {Msg : Type} (s : AdapterState Msg) (a : TrackedDisposal) :
    (runTracked s a).toDispose = s.toDispose := by
  cases a with
  | removeListener topic cb => rfl
  | emitterDispose k => cases k <;> rfl

theorem runTracked_regCountAll_le {Msg : Type} (s : AdapterState Msg)
    (a : TrackedDisposal) (cb : Nat) :
    regCountAll (runTracked s a).registry cb ≤ regCountAll s.registry cb := by
  cases a with
  | removeListener topic c => exact regCountAll_ipcMainRemoveListener_le _ _ _ _
  | emitterDispose k => cases k <;> exact Nat.le_refl _

theorem runAllTracked_log {Msg : Type} (acts : List TrackedDisposal)
    (s : AdapterState Msg) : (runAllTracked s acts).log = s.log := by
  induction acts generalizing s with
  | nil => rfl
  | cons a as ih => simp [runAllTracked, ih, runTracked_log]

theorem runAllTracked_regCountAll_zero {Msg : Type} (acts : List TrackedDisposal)
    (s : AdapterState Msg) (cb : Nat) (h : regCountAll s.registry cb = 0) :
    regCountAll (runAllTracked s acts).registry cb = 0 := by
  induction acts generalizing s with
  | nil => exact h
  | cons a as ih =>
    apply ih
    exact Nat.le_antisymm (h ▸ runTracked_regCountAll_le s a cb) (Nat.zero_le _)

theorem disposeCall_log {Msg : Type} (s : AdapterState Msg) :
    (disposeCall s).log = s.log := by
  unfold disposeCall
  by_cases h : s.toDispose.disposed
  · rw [if_pos h]
  · rw [if_neg h]
    exact runAllTracked_log _ s

theorem disposeCall_disposed {Msg : Type} (s : AdapterState Msg) :
    (disposeCall s).toDispose.disposed = true := by
  unfold disposeCall
  by_cases h : s.toDispose.disposed
  · rw [if_pos h]
    exact h
  · rw [if_neg h]

theorem disposeCall_regCountAll_zero {Msg : Type} (s : AdapterState Msg) (cb : Nat)
    (h : regCountAll s.registry cb = 0) :
    regCountAll (disposeCall s).registry cb = 0 := by
  unfold disposeCall
  by_cases hd : s.toDispose.disposed
  · rw [if_pos hd]
    exact h
  · rw [if_neg hd]
    exact runAllTracked_regCountAll_zero _ s cb h

theorem disposeCall_of_disposed {Msg : Type} (s : AdapterState Msg)
    (h : s.toDispose.disposed = true) : disposeCall s = s := by
  simp [disposeCall, h]

theorem disposeCall_disposeCall {Msg : Type} (s : AdapterState Msg) :
    disposeCall (disposeCall s) = disposeCall s :=
  disposeCall_of_disposed _ (disposeCall_disposed s)

theorem step_signalEvents {Msg : Type} (s : AdapterState Msg) (op : Op Msg) :
    signalEvents (step s op).log = signalEvents s.log := by
  cases op with
  | listen cb =>
    simp only [step]
    by_cases h : s.toDispose.disposed
    · rw [if_pos h]
    · rw [if_neg h]
  | write m =>
    simp only [step]
    by_cases h : s.toDispose.disposed
    · rw [if_pos h]
    · rw [if_neg h]
      show signalEvents (s.log ++ emitEvents s.registry ElectronIpcMainChannel m) = _
      rw [signalEvents_append, signalEvents_emitEvents, List.append_nil]
  | disposeReader => exact congrArg signalEvents (disposeCall_log s)
  | disposeWriter => exact congrArg signalEvents (disposeCall_log s)
  | onError cb => rfl
  | onClose cb => rfl
  | onPartialMessage cb => rfl
  | extSubscribe topic cb => rfl
  | extPublish topic m =>
    show signalEvents (s.log ++ emitEvents s.registry topic m) = _
    rw [signalEvents_append, signalEvents_emitEvents, List.append_nil]

theorem run_signalEvents {Msg : Type} (ops : List (Op Msg)) (s : AdapterState Msg) :
    signalEvents (run s ops).log = signalEvents s.log := by
  induction ops generalizing s with
  | nil => rfl
  | cons op rest ih =>
    show signalEvents (run (step s op) rest).log = _
    rw [ih, step_signalEvents]

theorem step_preserves_unregistered {Msg : Type} (s : AdapterState Msg) (cb : Nat)
    (op : Op Msg) (h : regCountAll s.registry cb = 0)
    (hop : registersCb cb op = false) :
    regCountAll (step s op).registry cb = 0 ∧
      deliveriesTo cb (step s op).log = deliveriesTo cb s.log := by
  have hcount : ∀ topic, regCount s.registry topic cb = 0 := by
    intro topic
    exact Nat.le_antisymm (h ▸ regCount_le_regCountAll s.registry topic cb)
      (Nat.zero_le _)
  have hemit : ∀ topic (m : Msg),
      deliveriesTo cb (s.log ++ emitEvents s.registry topic m) =
        deliveriesTo cb s.log := by
    intro topic m
    rw [deliveriesTo_append, deliveriesTo_emitEvents, hcount, List.replicate_zero,
      List.append_nil]
  cases op with
  | listen c =>
    have hc : ¬ c = cb := by
      simpa [registersCb] using hop
    simp only [step]
    by_cases hd : s.toDispose.disposed
    · rw [if_pos hd]
      exact ⟨h, rfl⟩
    · rw [if_neg hd]
      refine ⟨?_, rfl⟩
      show regCountAll (ipcMainOn s.registry ElectronIpcMainChannel c) cb = 0
      rw [ipcMainOn, regCountAll_append, h]
      simp [regCountAll, hc]
  | write m =>
    simp only [step]
    by_cases hd : s.toDispose.disposed
    · rw [if_pos hd]
      exact ⟨h, rfl⟩
    · rw [if_neg hd]
      exact ⟨h, hemit _ m⟩
  | disposeReader =>
    exact ⟨disposeCall_regCountAll_zero s cb h, congrArg (deliveriesTo cb) (disposeCall_log s)⟩
  | disposeWriter =>
    exact ⟨disposeCall_regCountAll_zero s cb h, congrArg (deliveriesTo cb) (disposeCall_log s)⟩
  | onError c => exact ⟨h, rfl⟩
  | onClose c => exact ⟨h, rfl⟩
  | onPartialMessage c => exact ⟨h, rfl⟩
  | extSubscribe topic c =>
    have hc : ¬ c = cb := by
      simpa [registersCb] using hop
    refine ⟨?_, rfl⟩
    show regCountAll (ipcMainOn s.registry topic c) cb = 0
    rw [ipcMainOn, regCountAll_append, h]
    simp [regCountAll, hc]
  | extPublish topic m => exact ⟨h, hemit topic m⟩

theorem run_preserves_unregistered {Msg : Type} (ops : List (Op Msg))
    (s : AdapterState Msg) (cb : Nat) (h : regCountAll s.registry cb = 0)
    (hops : ∀ o ∈ ops, registersCb cb o = false) :
    regCountAll (run s ops).registry cb = 0 ∧
      deliveriesTo cb (run s ops).log = deliveriesTo cb s.log := by
  induction ops generalizing s with
  | nil => exact ⟨h, rfl⟩
  | cons op rest ih =>
    have hop : registersCb cb op = false := hops op (List.mem_cons_self op rest)
    have hstep := step_preserves_unregistered s cb op h hop
    have hrest := ih (step s op) hstep.1
      (fun o ho => hops o (List.mem_cons_of_mem op ho))
    exact ⟨hrest.1, by rw [show run s (op :: rest) = run (step s op) rest from rfl,
      hrest.2, hstep.2]⟩

theorem disposeCall_not_disposed {Msg : Type} (s : AdapterState Msg)
    (hd : ¬ s.toDispose.disposed = true) :
    disposeCall s =
      { runAllTracked s s.toDispose.actions.reverse with toDispose := ⟨true, []⟩ } := by
  unfold disposeCall
  rw [if_neg hd]

/-! ### Sanity checks on concrete runs -/

example : deliveriesTo 0 (run (initState Nat) [Op.listen 0, Op.write 7]).log = [7] := by
  decide

example :
    deliveriesTo 0
      (run (initState Nat)
        [Op.listen 0, Op.disposeReader,
          Op.extPublish ElectronIpcMainChannel 9]).log = [] := by
  decide

example :
    deliveriesTo 0 (run (initState Nat) [Op.listen 0, Op.listen 1, Op.write 7]).log
      = [7] := by
  decide

example : (run (initState Nat) [Op.disposeReader]).toDispose.disposed = true := by
  decide

/-! ### Claim theorems -/

/-- C1: for every message `m`, if a callback has been registered via the reader's
`listen` while the disposal collection is not disposed, a single `write m` causes
that callback to be invoked exactly once with `m` itself, unchanged (the message
type is arbitrary, so the adapter neither inspects nor transforms the message). -/
theorem listen_write_delivers_message_once {Msg : Type} (s : AdapterState Msg)
    (cb : Nat) (m : Msg) (hd : s.toDispose.disposed = false)
    (hf : regCount s.registry ElectronIpcMainChannel cb = 0) :
    deliveriesTo cb (run s [Op.listen cb, Op.write m]).log =
      deliveriesTo cb s.log ++ [m] := by
  show deliveriesTo cb (step (step s (Op.listen cb)) (Op.write m)).log = _
  simp [step, hd, ipcMainOn, deliveriesTo_append, deliveriesTo_emitEvents,
    regCount_append, hf, regCount]

/-- Witness for C1 at a concrete input. -/
theorem listen_write_delivers_message_once_witness :
    deliveriesTo 0 (run (initState Nat) [Op.listen 0, Op.write 7]).log =
      deliveriesTo 0 (initState Nat).log ++ [7] :=
  listen_write_delivers_message_once (initState Nat) 0 7 (by decide) (by decide)

/-- C2: while a callback is registered (exactly once) via `listen` and the
collection is not disposed, a sequence of writes `m1, ..., mn` is observed by the
callback as exactly `m1, ..., mn` in the same order — no reordering and no drops
(the modelled registry delivers synchronously in publish order). -/
theorem writes_delivered_in_order {Msg : Type} (s : AdapterState Msg) (cb : Nat)
    (ms : List Msg) (hd : s.toDispose.disposed = false)
    (h1 : regCount s.registry ElectronIpcMainChannel cb = 1) :
    deliveriesTo cb (run s (ms.map Op.write)).log = deliveriesTo cb s.log ++ ms := by
  induction ms generalizing s with
  | nil => simp [run]
  | cons m rest ih =>
    have hstep : step s (Op.write m) =
        { s with log := s.log ++ emitEvents s.registry ElectronIpcMainChannel m } := by
      simp [step, hd]
    show deliveriesTo cb (run (step s (Op.write m)) (rest.map Op.write)).log = _
    rw [hstep,
      ih { s with log := s.log ++ emitEvents s.registry ElectronIpcMainChannel m } hd h1]
    simp [deliveriesTo_append, deliveriesTo_emitEvents, h1]

/-- Witness for C2 at a concrete input. -/
theorem writes_delivered_in_order_witness :
    deliveriesTo 0
        (run (run (initState Nat) [Op.listen 0]) ([5, 7, 9].map Op.write)).log =
      deliveriesTo 0 (run (initState Nat) [Op.listen 0]).log ++ [5, 7, 9] :=
  writes_delivered_in_order (run (initState Nat) [Op.listen 0]) 0 [5, 7, 9]
    (by decide) (by decide)

/-- C3: calling `write m` after disposal has no observable effect: the whole state
(registry, collection, emitters, invocation log) is unchanged, so nothing is
published and no previously registered listener is invoked; the step is total, so
no error is raised — the message is silently dropped. -/
theorem write_after_dispose_is_noop {Msg : Type} (s : AdapterState Msg) (m : Msg)
    (hd : s.toDispose.disposed = true) : step s (Op.write m) = s := by
  simp [step, hd]

/-- Witness for C3 at a concrete input. -/
theorem write_after_dispose_is_noop_witness :
    step (run (initState Nat) [Op.disposeReader]) (Op.write 3) =
      run (initState Nat) [Op.disposeReader] :=
  write_after_dispose_is_noop (run (initState Nat) [Op.disposeReader]) 3 (by decide)

/-- C4: calling `listen cb` after disposal registers nothing: the whole state is
unchanged, so no registration is added to the channel registry or to the disposal
collection, and no error is raised; `cb` is therefore never invoked on account of
this call. -/
theorem listen_after_dispose_is_noop {Msg : Type} (s : AdapterState Msg) (cb : Nat)
    (hd : s.toDispose.disposed = true) : step s (Op.listen cb) = s := by
  simp [step, hd]

/-- Witness for C4 at a concrete input. -/
theorem listen_after_dispose_is_noop_witness :
    step (run (initState Nat) [Op.disposeWriter]) (Op.listen 2) =
      run (initState Nat) [Op.disposeWriter] :=
  listen_after_dispose_is_noop (run (initState Nat) [Op.disposeWriter]) 2 (by decide)

/-- C5: `dispose()` is idempotent: from every state, performing any dispose
operation (reader's or writer's) twice in succession yields exactly the end state
of performing it once — the second call runs no tracked disposal action (the state,
including registry and emitters, is already final) and, the step being total,
raises no error. -/
theorem dispose_idempotent {Msg : Type} (s : AdapterState Msg) (d1 d2 : Op Msg)
    (h1 : d1 = Op.disposeReader ∨ d1 = Op.disposeWriter)
    (h2 : d2 = Op.disposeReader ∨ d2 = Op.disposeWriter) :
    step (step s d1) d2 = step s d1 := by
  rcases h1 with rfl | rfl <;> rcases h2 with rfl | rfl <;>
    exact disposeCall_disposeCall s

/-- Witness for C5 at a concrete input. -/
theorem dispose_idempotent_witness :
    step (step (run (initState Nat) [Op.listen 0]) Op.disposeReader) Op.disposeWriter =
      step (run (initState Nat) [Op.listen 0]) Op.disposeReader :=
  dispose_idempotent (run (initState Nat) [Op.listen 0]) Op.disposeReader
    Op.disposeWriter (Or.inl rfl) (Or.inr rfl)

/-- C6: the `onError`, `onClose` and `onPartialMessage` emitters are never fired by
this transport: whatever sequence of operations (listens, writes, disposals,
subscriptions, external registry traffic) runs from the module's initial state, the
invocation log contains no signal-emitter event at all. -/
theorem signal_emitters_never_fired (Msg : Type) (ops : List (Op Msg)) :
    signalEvents (run (initState Msg) ops).log = [] := by
  rw [run_signalEvents]
  rfl

theorem listen_dispose_unregisters {Msg : Type} (s : AdapterState Msg) (cb : Nat)
    (hd : s.toDispose.disposed = false)
    (hall : regCountAll s.registry cb = 0) :
    regCountAll (run s [Op.listen cb, Op.disposeReader]).registry cb = 0 := by
  have hd' : ¬ s.toDispose.disposed = true := by simp [hd]
  show regCountAll (disposeCall (step s (Op.listen cb))).registry cb = 0
  simp only [step]
  rw [if_neg hd']
  unfold disposeCall
  simp only [hd, List.reverse_append, List.reverse_cons, List.reverse_nil,
    List.nil_append, List.singleton_append, runAllTracked, runTracked, ipcMainOn,
    Bool.false_eq_true, if_false]
  rw [ipcMainRemoveListener_append_last]
  exact runAllTracked_regCountAll_zero _ _ cb hall

/-- C7: disposing the collection removes exactly the listener registration created
by `listen`: after `listen cb` and a `dispose()`, no subsequent operation sequence
that does not re-register `cb` (in particular any publish on the topic, by the
writer or by another party) ever invokes `cb` again. -/
theorem disposed_listener_never_invoked {Msg : Type} (s : AdapterState Msg) (cb : Nat)
    (ops : List (Op Msg)) (hd : s.toDispose.disposed = false)
    (hall : regCountAll s.registry cb = 0)
    (hops : ∀ o ∈ ops, registersCb cb o = false) :
    deliveriesTo cb (run (run s [Op.listen cb, Op.disposeReader]) ops).log =
      deliveriesTo cb (run s [Op.listen cb, Op.disposeReader]).log :=
  (run_preserves_unregistered ops _ cb (listen_dispose_unregisters s cb hd hall)
    hops).2

/-- Witness for C7 at a concrete input. -/
theorem disposed_listener_never_invoked_witness :
    deliveriesTo 0
        (run (run (initState Nat) [Op.listen 0, Op.disposeReader])
          [Op.extPublish ElectronIpcMainChannel 9, Op.write 4]).log =
      deliveriesTo 0 (run (initState Nat) [Op.listen 0, Op.disposeReader]).log :=
  disposed_listener_never_invoked (initState Nat) 0
    [Op.extPublish ElectronIpcMainChannel 9, Op.write 4] (by decide) (by decide)
    (by decide)

/-- C8: the channel has broadcast fan-out semantics: with two distinct callbacks
both registered on the topic before any write, a single `write m` invokes each of
the two callbacks exactly once with `m` — every subscriber receives the message,
not exactly one consumer. -/
theorem broadcast_fanout_two_listeners {Msg : Type} (s : AdapterState Msg)
    (cb1 cb2 : Nat) (m : Msg) (hd : s.toDispose.disposed = false)
    (hne : cb1 ≠ cb2)
    (h1 : regCount s.registry ElectronIpcMainChannel cb1 = 0)
    (h2 : regCount s.registry ElectronIpcMainChannel cb2 = 0) :
    deliveriesTo cb1 (run s [Op.listen cb1, Op.listen cb2, Op.write m]).log =
        deliveriesTo cb1 s.log ++ [m] ∧
      deliveriesTo cb2 (run s [Op.listen cb1, Op.listen cb2, Op.write m]).log =
        deliveriesTo cb2 s.log ++ [m] := by
  have hne' : cb2 ≠ cb1 := Ne.symm hne
  refine ⟨?_, ?_⟩ <;>
    simp [run, step, hd, ipcMainOn, deliveriesTo_append, deliveriesTo_emitEvents,
      regCount_append, h1, h2, regCount, hne, hne']

/-- Witness for C8 at a concrete input. -/
theorem broadcast_fanout_two_listeners_witness :
    deliveriesTo 1
        (run (initState Nat) [Op.listen 1, Op.listen 2, Op.write 7]).log =
        deliveriesTo 1 (initState Nat).log ++ [7] ∧
      deliveriesTo 2
        (run (initState Nat) [Op.listen 1, Op.listen 2, Op.write 7]).log =
        deliveriesTo 2 (initState Nat).log ++ [7] :=
  broadcast_fanout_two_listeners (initState Nat) 1 2 7 (by decide) (by decide)
    (by decide) (by decide)

/-- C9: the reader's and the writer's `dispose()` act on one shared disposal
collection: the two dispose operations are the very same state transformation, and
after either one, both `listen` on the reader and `write` on the writer are
no-ops — there is no state in which one half is disposed and the other still
operates. -/
theorem reader_writer_share_disposal {Msg : Type} (s : AdapterState Msg) :
    step s Op.disposeReader = step s Op.disposeWriter ∧
      (∀ cb, step (step s Op.disposeReader) (Op.listen cb) =
        step s Op.disposeReader) ∧
      ∀ m, step (step s Op.disposeWriter) (Op.write m) = step s Op.disposeWriter := by
  refine ⟨rfl, fun cb => ?_, fun m => ?_⟩
  · show step (disposeCall s) (Op.listen cb) = disposeCall s
    simp [step, disposeCall_disposed s]
  · show step (disposeCall s) (Op.write m) = disposeCall s
    simp [step, disposeCall_disposed s]

/-- C10: `write m` delivers synchronously and locally: within the very write step
(before it returns), every callback currently registered on the channel in this
process is invoked with `m`, once per registration — a same-process loopback emit,
not a deferred or cross-process send. -/
theorem write_delivers_synchronously {Msg : Type} (s : AdapterState Msg) (m : Msg)
    (cb : Nat) (hd : s.toDispose.disposed = false) :
    deliveriesTo cb (step s (Op.write m)).log =
      deliveriesTo cb s.log ++
        List.replicate (regCount s.registry ElectronIpcMainChannel cb) m := by
  simp [step, hd, deliveriesTo_append, deliveriesTo_emitEvents]

/-- Witness for C10 at a concrete input. -/
theorem write_delivers_synchronously_witness :
    deliveriesTo 4 (step (run (initState Nat) [Op.listen 4]) (Op.write 9)).log =
      deliveriesTo 4 (run (initState Nat) [Op.listen 4]).log ++
        List.replicate
          (regCount (run (initState Nat) [Op.listen 4]).registry
            ElectronIpcMainChannel 4) 9 :=
  write_delivers_synchronously (run (initState Nat) [Op.listen 4]) 9 4 (by decide)
